import Mathlib

/-!
Shallow embedding of go-simplejson (src/simplejson.go): a dynamically
typed wrapper over decoded JSON values with chained path navigation
(Get / CheckGet), type-checked accessors (CheckMap, CheckArray, ...),
defaulted variadic convenience accessors (String, Int, ...), and the
mutation operations Set, SetPath, Del.

Go values of type interface\x7b\x7d holding decoded JSON are modelled by
the inductive JValue; Go numbers (float64 after decoding) are modelled
as rationals, so every modelled number is finite.  A Go map is modelled
as an association list with unique keys (lookup finds the first match,
insertion replaces the first match, delete removes it).  The Json
wrapper struct is transparent: a *Json is modelled by the JValue it
wraps, and the nil pointer / nil data returned on failure is the null
variant.  Functions that can panic at runtime (a[index] with a negative
index, log.Panicf on too many variadic arguments) return an explicit
panic outcome.
-/

namespace Simplejson

/-- A decoded JSON value (the payload of the Go Json struct). -/
inductive JValue where
  | null : JValue
  | bool : Bool → JValue
  | num : Rat → JValue
  | str : String → JValue
  | arr : List JValue → JValue
  | obj : List (String × JValue) → JValue

/-- One element of the variadic branch of Get / CheckGet: a string key,
an int index, or a value of any other dynamic type (the default case of
the type switch in CheckGet). -/
inductive PathStep where
  | key : String → PathStep
  | idx : Int → PathStep
  | other : PathStep

/-- Outcome of a navigation walk: a located value, a not-found result,
or a runtime panic (out-of-range slice indexing). -/
inductive WalkResult where
  | found : JValue → WalkResult
  | notFound : WalkResult
  | panic : WalkResult

/-- Outcome of a Go function call that either returns a value or panics. -/
inductive Outcome (α : Type) where
  | ret : α → Outcome α
  | panic : Outcome α

/-- Go map lookup m[k] on the association-list model. -/
def findKey : List (String × JValue) → String → Option JValue
  | [], _ => none
  | (k, v) :: rest, key => if k = key then some v else findKey rest key

/-- Go map assignment m[k] = v on the association-list model. -/
def putKey : List (String × JValue) → String → JValue → List (String × JValue)
  | [], k, v => [(k, v)]
  | (k1, v1) :: rest, k, v =>
    if k1 = k then (k, v) :: rest else (k1, v1) :: putKey rest k v

/-- Go delete(m, k) on the association-list model. -/
def delKey : List (String × JValue) → String → List (String × JValue)
  | [], _ => []
  | (k1, v1) :: rest, k =>
    if k1 = k then rest else (k1, v1) :: delKey rest k

/-- Whether the wrapped value is Object-shaped (the type assertion of
CheckMap succeeds). -/
def isObj : JValue → Bool
  | .obj _ => true
  | _ => false

/-- CheckMap: type asserts the wrapped data to map[string]interface\x7b\x7d. -/
def CheckMap (j : JValue) : Except String (List (String × JValue)) :=
  match j with
  | .obj m => .ok m
  | _ => .error "type assertion to map[string]interface\x7b\x7d failed"

/-- CheckArray: type asserts the wrapped data to []interface\x7b\x7d. -/
def CheckArray (j : JValue) : Except String (List JValue) :=
  match j with
  | .arr a => .ok a
  | _ => .error "type assertion to []interface\x7b\x7d failed"

/-- CheckBool: type asserts the wrapped data to bool. -/
def CheckBool (j : JValue) : Except String Bool :=
  match j with
  | .bool b => .ok b
  | _ => .error "type assertion to bool failed"

/-- CheckString: type asserts the wrapped data to string. -/
def CheckString (j : JValue) : Except String String :=
  match j with
  | .str s => .ok s
  | _ => .error "type assertion to string failed"

/-- CheckJsonMap: CheckMap, then each contained value rewrapped as its
own Json.  The wrapper is transparent in this model, so the rewrap is
the identity on each value. -/
def CheckJsonMap (j : JValue) : Except String (List (String × JValue)) :=
  match CheckMap j with
  | .ok m => .ok (m.map (fun kv => (kv.1, kv.2)))
  | .error e => .error e

/-- CheckJsonArray: CheckArray, then each element rewrapped as its own
Json (the identity on each element in this model). -/
def CheckJsonArray (j : JValue) : Except String (List JValue) :=
  match CheckArray j with
  | .ok a => .ok (a.map (fun v => v))
  | .error e => .error e

/-- Modelled from the spec: CheckInt is called by Int but its definition
is not among the repository files under src (it lives in a build-tagged
file that is absent).  Per the spec, a numeric value succeeds as an
integral type exactly when it is representable losslessly at the target
width (64-bit signed int here): it must have no fractional part and must
not overflow; non-finite numbers are outside the rational model.  All
other variants fail with the uniform type-mismatch error. -/
def CheckInt (j : JValue) : Except String Int :=
  match j with
  | .num q =>
    if q.den = 1 ∧ -9223372036854775808 ≤ q.num ∧ q.num < 9223372036854775808
    then .ok q.num
    else .error "type assertion to int failed"
  | _ => .error "type assertion to int failed"

/-- Modelled from the spec: CheckInt64, absent from src like CheckInt;
lossless representability in 64-bit signed range. -/
def CheckInt64 (j : JValue) : Except String Int :=
  match j with
  | .num q =>
    if q.den = 1 ∧ -9223372036854775808 ≤ q.num ∧ q.num < 9223372036854775808
    then .ok q.num
    else .error "type assertion to int64 failed"
  | _ => .error "type assertion to int64 failed"

/-- Modelled from the spec: CheckUint64, absent from src; lossless
representability in 64-bit unsigned range. -/
def CheckUint64 (j : JValue) : Except String Nat :=
  match j with
  | .num q =>
    if q.den = 1 ∧ 0 ≤ q.num ∧ q.num < 18446744073709551616
    then .ok q.num.toNat
    else .error "type assertion to uint64 failed"
  | _ => .error "type assertion to uint64 failed"

/-- Modelled from the spec: CheckFloat64, absent from src; every numeric
value (numbers are finite in the rational model) succeeds as floating
point, all other variants fail. -/
def CheckFloat64 (j : JValue) : Except String Rat :=
  match j with
  | .num q => .ok q
  | _ => .error "type assertion to float64 failed"

/-- getKey: one object hop.  CheckMap, then look the key up; returns the
sub-value with true on success and nil with false otherwise. -/
def getKey (j : JValue) (key : String) : Option JValue :=
  match j with
  | .obj m => findKey m key
  | _ => none

/-- getIndex: one array hop.  CheckArray, then the Go code checks only
len(a) > index before evaluating a[index]; when the index is negative
that guard passes and the slice indexing panics at runtime. -/
def getIndex (j : JValue) (index : Int) : WalkResult :=
  match j with
  | .arr a =>
    if index < (a.length : Int) then
      if index < 0 then .panic
      else .found (a.getD index.toNat .null)
    else .notFound
  | _ => .notFound

/-- CheckGet: walks the branch left to right; a string step goes through
getKey, an int step through getIndex, any other step sets ok = false;
the walk stops with (nil, false) at the first failed step and otherwise
returns the reached value with true.  A panic in getIndex propagates. -/
def CheckGet (j : JValue) : List PathStep → WalkResult
  | [] => .found j
  | p :: rest =>
    match p with
    | .key s =>
      match getKey j s with
      | some v => CheckGet v rest
      | none => .notFound
    | .idx i =>
      match getIndex j i with
      | .found v => CheckGet v rest
      | .notFound => .notFound
      | .panic => .panic
    | .other => .notFound

/-- Get: CheckGet with the flag discarded; on failure it returns a fresh
Json wrapping nil (the null variant here).  none models a propagated
panic, some a normal return. -/
def Get (j : JValue) (branch : List PathStep) : Option JValue :=
  match CheckGet j branch with
  | .found v => some v
  | .notFound => some .null
  | .panic => none

/-- Set: CheckMap, silently return on error, otherwise assign the key. -/
def Set (j : JValue) (key : String) (val : JValue) : JValue :=
  match j with
  | .obj m => .obj (putKey m key val)
  | _ => j

/-- Del: CheckMap, silently return on error, otherwise delete the key. -/
def Del (j : JValue) (key : String) : JValue :=
  match j with
  | .obj m => .obj (delKey m key)
  | _ => j

/-- The intermediate-node branch of the SetPath loop: when the existing
value under the key is a map, descend into it, otherwise (missing key or
wrong-shaped value) a fresh empty map takes its place. -/
def subMap : Option JValue → List (String × JValue)
  | some (.obj m2) => m2
  | _ => []

/-- The root coercion of SetPath: a non-map root is replaced with a
fresh empty map before the loop runs. -/
def rootMap : JValue → List (String × JValue)
  | .obj m => m
  | _ => []

/-- The loop of SetPath acting on a map: for each branch element but the
last, descend into the map under the key (installing a fresh empty map
when the key is missing or its value is not a map), and finally assign
the value at the last key.  Never called on an empty branch. -/
def setPathMap : List (String × JValue) → List String → JValue → List (String × JValue)
  | m, [], _ => m
  | m, [b], v => putKey m b v
  | m, b :: b2 :: rest, v =>
    putKey m b (.obj (setPathMap (subMap (findKey m b)) (b2 :: rest) v))

/-- SetPath: an empty branch replaces the whole wrapped value; otherwise
the root is coerced to a map and the loop writes along the branch. -/
def SetPath (j : JValue) (branch : List String) (val : JValue) : JValue :=
  match branch with
  | [] => val
  | b :: rest => .obj (setPathMap (rootMap j) (b :: rest) val)

/-- The shared shape of all ten defaulted convenience accessors: a
switch on the number of variadic arguments fixes the default (zero
value for none, the argument for one, log.Panicf for more), then the
Check accessor's value is returned on success and the default on error. -/
def withDefault {α : Type} (args : List α) (zero : α) (check : Except String α) : Outcome α :=
  match args with
  | [] =>
    match check with
    | .ok x => .ret x
    | .error _ => .ret zero
  | [d] =>
    match check with
    | .ok x => .ret x
    | .error _ => .ret d
  | _ :: _ :: _ => .panic

/-- The String accessor (named String in the source). -/
def StringV (j : JValue) (args : List String) : Outcome String :=
  withDefault args "" (CheckString j)

/-- The Int accessor. -/
def IntV (j : JValue) (args : List Int) : Outcome Int :=
  withDefault args 0 (CheckInt j)

/-- The Int64 accessor. -/
def Int64V (j : JValue) (args : List Int) : Outcome Int :=
  withDefault args 0 (CheckInt64 j)

/-- The Uint64 accessor. -/
def Uint64V (j : JValue) (args : List Nat) : Outcome Nat :=
  withDefault args 0 (CheckUint64 j)

/-- The Float64 accessor. -/
def Float64V (j : JValue) (args : List Rat) : Outcome Rat :=
  withDefault args 0 (CheckFloat64 j)

/-- The Bool accessor. -/
def BoolV (j : JValue) (args : List Bool) : Outcome Bool :=
  withDefault args false (CheckBool j)

/-- The Array accessor (zero value: the nil slice). -/
def ArrayV (j : JValue) (args : List (List JValue)) : Outcome (List JValue) :=
  withDefault args [] (CheckArray j)

/-- The Map accessor (zero value: the nil map). -/
def MapV (j : JValue) (args : List (List (String × JValue))) : Outcome (List (String × JValue)) :=
  withDefault args [] (CheckMap j)

/-- The JsonArray accessor. -/
def JsonArrayV (j : JValue) (args : List (List JValue)) : Outcome (List JValue) :=
  withDefault args [] (CheckJsonArray j)

/-- The JsonMap accessor. -/
def JsonMapV (j : JValue) (args : List (List (String × JValue))) : Outcome (List (String × JValue)) :=
  withDefault args [] (CheckJsonMap j)

/-- Looking up a key just written finds the written value. -/
theorem findKey_putKey (m : List (String × JValue)) (k : String) (v : JValue) :
    findKey (putKey m k v) k = some v := by
  induction m with
  | nil => simp [putKey, findKey]
  | cons kv rest ih =>
    obtain ⟨k1, v1⟩ := kv
    by_cases h : k1 = k
    · simp [putKey, findKey, h]
    · simp [putKey, findKey, h, ih]

/-- Deleting a key that a map does not hold leaves the map unchanged. -/
theorem delKey_of_absent (m : List (String × JValue)) (k : String)
    (h : findKey m k = none) : delKey m k = m := by
  induction m with
  | nil => simp [delKey]
  | cons kv rest ih =>
    obtain ⟨k1, v1⟩ := kv
    by_cases hk : k1 = k
    · simp [findKey, hk] at h
    · simp [findKey, hk] at h
      simp [delKey, hk, ih h]

/-- After the SetPath loop writes value v along a non-empty branch, the
navigation walk along that branch finds v. -/
theorem checkGet_setPathMap (rest : List String) (b : String)
    (m : List (String × JValue)) (v : JValue) :
    CheckGet (.obj (setPathMap m (b :: rest) v))
      (PathStep.key b :: rest.map PathStep.key) = .found v := by
  induction rest generalizing b m with
  | nil => simp [setPathMap, CheckGet, getKey, findKey_putKey]
  | cons b2 rest ih =>
    simp only [setPathMap, List.map, CheckGet, getKey, findKey_putKey]
    exact ih b2 (subMap (findKey m b))

/-- Along every proper prefix of the branch, the SetPath loop leaves an
Object-shaped value. -/
theorem checkGet_setPathMap_inter (pre : List String) (b : String)
    (suf : List String) (m : List (String × JValue)) (v : JValue) :
    ∃ m2, CheckGet (.obj (setPathMap m (pre ++ b :: suf) v))
      (pre.map PathStep.key) = .found (.obj m2) := by
  induction pre generalizing m with
  | nil => exact ⟨setPathMap m (b :: suf) v, rfl⟩
  | cons a pre ih =>
    cases pre with
    | nil =>
      refine ⟨setPathMap (subMap (findKey m a)) (b :: suf) v, ?_⟩
      simp [setPathMap, CheckGet, getKey, findKey_putKey]
    | cons c pre2 =>
      obtain ⟨m2, hm2⟩ := ih (subMap (findKey m a))
      refine ⟨m2, ?_⟩
      simp only [List.cons_append, setPathMap, List.map, CheckGet, getKey, findKey_putKey]
      exact hm2

/-- C9: CheckGet with an empty branch performs zero lookup steps and
returns the wrapped value itself with found = true, and Get with an
empty branch returns the wrapped value, whatever variant it wraps. -/
theorem empty_path_returns_self (j : JValue) :
    CheckGet j [] = .found j ∧ Get j [] = some j :=
  ⟨rfl, rfl⟩

/-- C10: on a failed lookup Get returns a valid wrapper holding the
null payload, and that sentinel is absorbing for navigation: every
further lookup step chained onto it is total, reports not found, and
yields the sentinel again — never a panic, whatever the step kind. -/
theorem sentinel_absorbing_spec :
    (∀ j branch, CheckGet j branch = .notFound → Get j branch = some .null) ∧
    (∀ s rest, CheckGet JValue.null (s :: rest) = .notFound ∧
      Get JValue.null (s :: rest) = some .null) := by
  constructor
  · intro j branch h
    simp [Get, h]
  · intro s rest
    cases s <;> simp [CheckGet, Get, getKey, getIndex]

/-- C10 witness: a concrete failed lookup returns the null sentinel,
and a further concrete lookup on the sentinel is again not found. -/
theorem sentinel_absorbing_concrete :
    Get (JValue.obj []) [PathStep.key "z"] = some .null ∧
    CheckGet JValue.null [PathStep.key "z"] = .notFound :=
  ⟨sentinel_absorbing_spec.1 (JValue.obj []) [PathStep.key "z"] rfl,
   (sentinel_absorbing_spec.2 (PathStep.key "z") []).1⟩

/-- C6: Get is CheckGet with the found flag discarded: when CheckGet
finds a value, Get returns that same value; when CheckGet reports not
found, Get returns the null sentinel instead — so a found JSON null and
the sentinel agree as values and are told apart only by the flag, as
the two closed conjuncts show on a document holding a null. -/
theorem get_refines_checkGet (j : JValue) (branch : List PathStep) :
    ((∀ v, CheckGet j branch = .found v → Get j branch = some v) ∧
     (CheckGet j branch = .notFound → Get j branch = some .null)) ∧
    (Get (JValue.obj [( "a", JValue.null)]) [PathStep.key "a"] = some .null ∧
     CheckGet (JValue.obj [( "a", JValue.null)]) [PathStep.key "a"] = .found .null) ∧
    (Get (JValue.obj []) [PathStep.key "a"] = some .null ∧
     CheckGet (JValue.obj []) [PathStep.key "a"] = .notFound) := by
  refine ⟨⟨?_, ?_⟩, ⟨rfl, rfl⟩, ⟨rfl, rfl⟩⟩
  · intro v h
    simp [Get, h]
  · intro h
    simp [Get, h]

/-- C6 witness: the refinement applied at concrete inputs, one found
and one not found. -/
theorem get_refines_checkGet_concrete :
    Get (JValue.obj [( "b", JValue.num 1)]) [PathStep.key "b"] = some (JValue.num 1) ∧
    Get (JValue.num 1) [PathStep.key "b"] = some .null :=
  ⟨((get_refines_checkGet (JValue.obj [( "b", JValue.num 1)]) [PathStep.key "b"]).1).1
      (JValue.num 1) rfl,
   ((get_refines_checkGet (JValue.num 1) [PathStep.key "b"]).1).2 rfl⟩

/-- C1: the navigation walk as specified terminates as not found on any
mismatched step — but not on a negative integer index against an array:
there the source checks only len(a) > index before indexing, so the
walk panics instead of reporting not found.  This theorem evaluates the
embedded code at the failing input. -/
theorem checkGet_negIndex_panics :
    CheckGet (JValue.obj [( "a", JValue.arr [JValue.num 1])])
      [PathStep.key "a", PathStep.idx (-1)] = .panic ∧
    CheckGet (JValue.obj [( "a", JValue.arr [JValue.num 1])])
      [PathStep.key "a", PathStep.idx 5] = .notFound ∧
    CheckGet (JValue.obj [( "a", JValue.arr [JValue.num 1])])
      [PathStep.key "a", PathStep.idx 0] = .found (JValue.num 1) ∧
    CheckGet (JValue.obj [( "a", JValue.arr [JValue.num 1])])
      [PathStep.idx 0] = .notFound ∧
    CheckGet (JValue.obj [( "a", JValue.arr [JValue.num 1])])
      [PathStep.key "b"] = .notFound ∧
    CheckGet (JValue.obj [( "a", JValue.arr [JValue.num 1])])
      [PathStep.key "a", PathStep.other] = .notFound :=
  ⟨rfl, rfl, rfl, rfl, rfl, rfl⟩

/-- C3: a lookup step with a negative index on an array-shaped value is
claimed to be total and not found; the embedded getIndex instead panics
for every negative index, because the source guards only len(a) > index
before evaluating a[index]. -/
theorem getIndex_negIndex_panics :
    getIndex (JValue.arr [JValue.num 1, JValue.num 2, JValue.num 3]) (-1) = .panic ∧
    getIndex (JValue.arr []) (-5) = .panic ∧
    getIndex (JValue.arr [JValue.num 1, JValue.num 2, JValue.num 3]) 3 = .notFound :=
  ⟨rfl, rfl, rfl⟩

/-- C2: SetPath with an empty path replaces the root with the value
whatever the root's shape; with a non-empty path of keys it ensures a
chain of nested objects along the path (every proper prefix resolves to
an Object-shaped value) and stores the value at the final key, so that
a subsequent CheckGet / Get along the path resolves to the value; a
wrong-shaped intermediate is silently replaced, as the closed conjunct
shows with an array discarded in favour of a fresh object. -/
theorem setPath_spec (j : JValue) (v : JValue) :
    SetPath j [] v = v ∧
    (∀ b rest, CheckGet (SetPath j (b :: rest) v)
      ((b :: rest).map PathStep.key) = .found v) ∧
    (∀ b rest, Get (SetPath j (b :: rest) v)
      ((b :: rest).map PathStep.key) = some v) ∧
    (∀ pre b suf, ∃ m2, CheckGet (SetPath j (pre ++ b :: suf) v)
      (pre.map PathStep.key) = .found (.obj m2)) ∧
    SetPath (JValue.obj [( "x", JValue.arr [JValue.num 1, JValue.num 2, JValue.num 3])])
      [ "x", "y"] (JValue.bool true)
      = JValue.obj [( "x", JValue.obj [( "y", JValue.bool true)])] := by
  refine ⟨rfl, ?_, ?_, ?_, rfl⟩
  · intro b rest
    exact checkGet_setPathMap rest b (rootMap j) v
  · intro b rest
    have h := checkGet_setPathMap rest b (rootMap j) v
    simp only [SetPath, List.map] at h ⊢
    simp [Get, h]
  · intro pre b suf
    cases pre with
    | nil => exact checkGet_setPathMap_inter [] b suf (rootMap j) v
    | cons c pre2 => exact checkGet_setPathMap_inter (c :: pre2) b suf (rootMap j) v

/-- C5: on a root that is not Object-shaped, Set and Del leave the
wrapped document completely unchanged (the failed CheckMap is swallowed,
no error reaches the caller), and Del on an object lacking the key also
leaves the document unchanged. -/
theorem set_del_noop_spec (j : JValue) (k : String) (v : JValue) :
    (isObj j = false → Set j k v = j ∧ Del j k = j) ∧
    (∀ m, j = JValue.obj m → findKey m k = none → Del j k = j) := by
  constructor
  · intro h
    cases j <;> simp_all [isObj, Set, Del]
  · intro m hm hf
    subst hm
    simp [Del, delKey_of_absent m k hf]

/-- C5 witness: Set and Del at an array-shaped root, and Del at an
object lacking the key, each leave the concrete document unchanged. -/
theorem set_del_noop_concrete :
    Set (JValue.arr [JValue.num 1]) "k" (JValue.num 2) = JValue.arr [JValue.num 1] ∧
    Del (JValue.arr [JValue.num 1]) "k" = JValue.arr [JValue.num 1] ∧
    Del (JValue.obj [( "a", JValue.null)]) "k" = JValue.obj [( "a", JValue.null)] :=
  ⟨((set_del_noop_spec (JValue.arr [JValue.num 1]) "k" (JValue.num 2)).1 rfl).1,
   ((set_del_noop_spec (JValue.arr [JValue.num 1]) "k" (JValue.num 2)).1 rfl).2,
   (set_del_noop_spec (JValue.obj [( "a", JValue.null)]) "k" JValue.null).2
     [( "a", JValue.null)] rfl rfl⟩

/-- C8: every defaulted convenience accessor called with two or more
default arguments panics, for every wrapped value and regardless of
whether the underlying Check accessor would have succeeded. -/
theorem too_many_defaults_panic (j : JValue) :
    (∀ (a b : String) rest, StringV j (a :: b :: rest) = .panic) ∧
    (∀ (a b : Int) rest, IntV j (a :: b :: rest) = .panic) ∧
    (∀ (a b : Int) rest, Int64V j (a :: b :: rest) = .panic) ∧
    (∀ (a b : Nat) rest, Uint64V j (a :: b :: rest) = .panic) ∧
    (∀ (a b : Rat) rest, Float64V j (a :: b :: rest) = .panic) ∧
    (∀ (a b : Bool) rest, BoolV j (a :: b :: rest) = .panic) ∧
    (∀ (a b : List JValue) rest, ArrayV j (a :: b :: rest) = .panic) ∧
    (∀ (a b : List (String × JValue)) rest, MapV j (a :: b :: rest) = .panic) ∧
    (∀ (a b : List JValue) rest, JsonArrayV j (a :: b :: rest) = .panic) ∧
    (∀ (a b : List (String × JValue)) rest, JsonMapV j (a :: b :: rest) = .panic) := by
  refine ⟨?_, ?_, ?_, ?_, ?_, ?_, ?_, ?_, ?_, ?_⟩ <;> exact fun a b rest => rfl

/-- C4: every defaulted convenience accessor returns the checked value
when its Check accessor succeeds; otherwise it returns the single
supplied default, and with no default the zero value of its type (empty
string, 0, false, nil container). -/
theorem defaulted_accessors_spec (j : JValue) :
    ((∀ x, CheckString j = .ok x → StringV j [] = .ret x ∧ ∀ d, StringV j [d] = .ret x) ∧
     (∀ e, CheckString j = .error e → StringV j [] = .ret "" ∧ ∀ d, StringV j [d] = .ret d)) ∧
    ((∀ x, CheckInt j = .ok x → IntV j [] = .ret x ∧ ∀ d, IntV j [d] = .ret x) ∧
     (∀ e, CheckInt j = .error e → IntV j [] = .ret 0 ∧ ∀ d, IntV j [d] = .ret d)) ∧
    ((∀ x, CheckInt64 j = .ok x → Int64V j [] = .ret x ∧ ∀ d, Int64V j [d] = .ret x) ∧
     (∀ e, CheckInt64 j = .error e → Int64V j [] = .ret 0 ∧ ∀ d, Int64V j [d] = .ret d)) ∧
    ((∀ x, CheckUint64 j = .ok x → Uint64V j [] = .ret x ∧ ∀ d, Uint64V j [d] = .ret x) ∧
     (∀ e, CheckUint64 j = .error e → Uint64V j [] = .ret 0 ∧ ∀ d, Uint64V j [d] = .ret d)) ∧
    ((∀ x, CheckFloat64 j = .ok x → Float64V j [] = .ret x ∧ ∀ d, Float64V j [d] = .ret x) ∧
     (∀ e, CheckFloat64 j = .error e → Float64V j [] = .ret 0 ∧ ∀ d, Float64V j [d] = .ret d)) ∧
    ((∀ x, CheckBool j = .ok x → BoolV j [] = .ret x ∧ ∀ d, BoolV j [d] = .ret x) ∧
     (∀ e, CheckBool j = .error e → BoolV j [] = .ret false ∧ ∀ d, BoolV j [d] = .ret d)) ∧
    ((∀ x, CheckArray j = .ok x → ArrayV j [] = .ret x ∧ ∀ d, ArrayV j [d] = .ret x) ∧
     (∀ e, CheckArray j = .error e → ArrayV j [] = .ret [] ∧ ∀ d, ArrayV j [d] = .ret d)) ∧
    ((∀ x, CheckMap j = .ok x → MapV j [] = .ret x ∧ ∀ d, MapV j [d] = .ret x) ∧
     (∀ e, CheckMap j = .error e → MapV j [] = .ret [] ∧ ∀ d, MapV j [d] = .ret d)) ∧
    ((∀ x, CheckJsonArray j = .ok x → JsonArrayV j [] = .ret x ∧ ∀ d, JsonArrayV j [d] = .ret x) ∧
     (∀ e, CheckJsonArray j = .error e → JsonArrayV j [] = .ret [] ∧ ∀ d, JsonArrayV j [d] = .ret d)) ∧
    ((∀ x, CheckJsonMap j = .ok x → JsonMapV j [] = .ret x ∧ ∀ d, JsonMapV j [d] = .ret x) ∧
     (∀ e, CheckJsonMap j = .error e → JsonMapV j [] = .ret [] ∧ ∀ d, JsonMapV j [d] = .ret d)) := by
  refine ⟨⟨?_, ?_⟩, ⟨?_, ?_⟩, ⟨?_, ?_⟩, ⟨?_, ?_⟩, ⟨?_, ?_⟩,
    ⟨?_, ?_⟩, ⟨?_, ?_⟩, ⟨?_, ?_⟩, ⟨?_, ?_⟩, ⟨?_, ?_⟩⟩ <;>
  · intro x h
    refine ⟨?_, fun d => ?_⟩ <;>
      simp [StringV, IntV, Int64V, Uint64V, Float64V, BoolV,
        ArrayV, MapV, JsonArrayV, JsonMapV, withDefault, h]

/-- C4 witness: the accessors applied at concrete inputs, one where the
Check accessor succeeds and one where it fails and the default is
returned. -/
theorem defaulted_accessors_concrete :
    StringV (JValue.str "hi") [] = .ret "hi" ∧
    StringV (JValue.num 1) [ "fallback"] = .ret "fallback" ∧
    StringV (JValue.num 1) [] = .ret "" :=
  ⟨((defaulted_accessors_spec (JValue.str "hi")).1.1 "hi" rfl).1,
   (((defaulted_accessors_spec (JValue.num 1)).1.2
      "type assertion to string failed" rfl).2 "fallback"),
   ((defaulted_accessors_spec (JValue.num 1)).1.2
      "type assertion to string failed" rfl).1⟩

/-- C7: a numeric value succeeds as an integral type exactly when it is
losslessly representable at the target width (integer-valued and in
range); concretely the number 3 succeeds as Int with value 3, the
number 3.5 fails Int coercion with the type-mismatch error but succeeds
as Float64 with value 3.5, and 2 to the 63rd overflows Int. -/
theorem numeric_coercion_spec :
    (∀ q : Rat, (∃ n, CheckInt (.num q) = .ok n) ↔
      (q.den = 1 ∧ -9223372036854775808 ≤ q.num ∧ q.num < 9223372036854775808)) ∧
    (∀ q : Rat, (∃ n, CheckInt64 (.num q) = .ok n) ↔
      (q.den = 1 ∧ -9223372036854775808 ≤ q.num ∧ q.num < 9223372036854775808)) ∧
    (∀ q : Rat, (∃ n, CheckUint64 (.num q) = .ok n) ↔
      (q.den = 1 ∧ 0 ≤ q.num ∧ q.num < 18446744073709551616)) ∧
    (∀ s, CheckInt (JValue.str s) = .error "type assertion to int failed") ∧
    CheckInt (JValue.num 3) = .ok 3 ∧
    CheckInt64 (JValue.num 3) = .ok 3 ∧
    CheckUint64 (JValue.num 3) = .ok 3 ∧
    CheckInt (JValue.num (7/2)) = .error "type assertion to int failed" ∧
    CheckFloat64 (JValue.num (7/2)) = .ok (7/2) ∧
    CheckFloat64 (JValue.num 3) = .ok 3 ∧
    CheckInt (JValue.num 9223372036854775808) = .error "type assertion to int failed" := by
  refine ⟨?_, ?_, ?_, fun s => rfl, ?_, ?_, ?_, ?_, rfl, rfl, ?_⟩
  · intro q
    by_cases h : q.den = 1 ∧ -9223372036854775808 ≤ q.num ∧ q.num < 9223372036854775808 <;>
      simp [CheckInt, h]
  · intro q
    by_cases h : q.den = 1 ∧ -9223372036854775808 ≤ q.num ∧ q.num < 9223372036854775808 <;>
      simp [CheckInt64, h]
  · intro q
    by_cases h : q.den = 1 ∧ 0 ≤ q.num ∧ q.num < 18446744073709551616
    · constructor
      · intro _
        exact h
      · intro _
        exact ⟨q.num.toNat, by simp only [CheckUint64, if_pos h]⟩
    · constructor
      · rintro ⟨n, hn⟩
        simp only [CheckUint64, if_neg h] at hn
        exact Except.noConfusion hn
      · intro hc
        exact absurd hc h
  · simp [CheckInt]
  · simp [CheckInt64]
  · simp [CheckUint64]
  · norm_num [CheckInt]
  · simp [CheckInt]

/-- C7 witness: the lossless-representability characterisation applied
at the concrete numbers 3 and 3.5. -/
theorem numeric_coercion_concrete :
    (∃ n, CheckInt (JValue.num 3) = .ok n) ∧ ¬ (∃ n, CheckInt (JValue.num (7/2)) = .ok n) :=
  ⟨(numeric_coercion_spec.1 3).mpr (by norm_num),
   fun hx => by
     have h := (numeric_coercion_spec.1 (7/2)).mp hx
     norm_num at h⟩

end Simplejson
